import Mathlib

/-!
Shallow embedding of `solution.py`: an orchestrator that logs in against an
HTTP API (`try_login`), fetches protected resources with 401-driven
re-authentication (`try_get`), and reports the collected answers (`main`).

The HTTP environment is modelled as response oracles (`Env`): the n-th POST
to the login endpoint receives `loginResps n`, and the n-th GET to a url
receives `getResps url n`.  Every request, response and log line is recorded
chronologically in a trace of `Event`s.  Since the Python loops need not
terminate (their `attempts` counter is never incremented), each procedure
takes a fuel parameter; a first component of `none` in the result means the
fuel ran out, i.e. the procedure was still looping.
-/

/-- Retry bound from `solution.py` line 10. -/
def MAX_RETRIES : Nat := 5

/-- Login endpoint url (`solution.py` line 29). -/
def LOGIN_URL : String := "http://localhost:5000/api/login"

/-- Fixed credentials posted by `try_login` (`solution.py` lines 25-28). -/
def CREDS : List (String × String) := [("username", "guest"), ("password", "guest")]

/-- The three protected resource urls (`solution.py` lines 59-63). -/
def SECRET_URLS : List String :=
  ["http://localhost:5000/api/secret1",
   "http://localhost:5000/api/secret2",
   "http://localhost:5000/api/secret3"]

/-- A response of the login endpoint: HTTP status plus the decoded body's
`access_token` field (`none` when the field is absent / null). -/
structure LoginResp where
  status : Nat
  access_token : Option String
deriving DecidableEq, Repr

/-- A response of a resource endpoint: HTTP status plus the decoded body's
`answer` field (`none` when the field is absent / null). -/
structure GetResp where
  status : Nat
  answer : Option String
deriving DecidableEq, Repr

/-- Response oracles: the n-th login POST gets `loginResps n`; the n-th GET
to `url` gets `getResps url n`. -/
structure Env where
  loginResps : Nat → LoginResp
  getResps : String → Nat → GetResp

/-- Observable events of a run, in chronological order: HTTP requests and
responses, the boundary of each `try_get` call made by `main`, and the log
lines the program emits. -/
inductive Event where
  | loginReq (url : String) (body : List (String × String))
  | loginResp (r : LoginResp)
  | getReq (url : String) (token : Option String)
  | getResp (r : GetResp)
  | fetchCall (url : String) (token : Option String)
  | logWarn401
  | logLoginExhausted (attempts maxRetries : Nat)
  | logGetExhausted (attempts maxRetries : Nat)
  | logReloginFailed
  | logSecretError (url : String)
  | logInfo (msg : String)
deriving DecidableEq, Repr

/-- Python truthiness of an `Optional[str]`: `None` and `""` are falsy. -/
def pyFalsy : Option String → Bool
  | none => true
  | some s => s == ""

/-- Mutable state threaded through a run: how many login POSTs have been
made, how many GETs per url, and the event trace so far. -/
structure St where
  nLogin : Nat
  nGet : String → Nat
  events : List Event

/-- Append one event to the trace. -/
def St.emit (s : St) (e : Event) : St := { s with events := s.events ++ [e] }

/-- Initial state: no requests made, empty trace. -/
def St.init : St := ⟨0, fun _ => 0, []⟩

/-- Increment the per-url GET counter. -/
def bumpGet (f : String → Nat) (url : String) : String → Nat :=
  fun u => if u = url then f u + 1 else f u

/-- Embedding of `try_login` (`solution.py` lines 23-37).  `attempts` is the
loop variable, which the source never increments.  Returns `(none, s)` when
the fuel runs out mid-loop, `(some tok, s)` when the Python function returns
`tok` (with `tok = none` for Python `None`). -/
def try_login (env : Env) : Nat → Nat → St → Option (Option String) × St
  | 0, _, s => (none, s)
  | fuel + 1, attempts, s =>
    if attempts < MAX_RETRIES then
      let r := env.loginResps s.nLogin
      let s' : St := { s with
        nLogin := s.nLogin + 1,
        events := s.events ++ [Event.loginReq LOGIN_URL CREDS, Event.loginResp r] }
      if r.status = 200 then
        (some r.access_token, s')
      else
        try_login env fuel attempts s'
    else
      (some none, s.emit (Event.logLoginExhausted attempts MAX_RETRIES))

/-- Embedding of `try_get` (`solution.py` lines 39-54).  `attempts` is the
loop variable, never incremented by the source; on a 401 it re-logs-in, on
any other non-200 status it loops with nothing changed. -/
def try_get (env : Env) : Nat → String → Option String → Nat → St → Option (Option String) × St
  | 0, _, _, _, s => (none, s)
  | fuel + 1, url, token, attempts, s =>
    if attempts < MAX_RETRIES then
      let r := env.getResps url (s.nGet url)
      let s' : St := { s with
        nGet := bumpGet s.nGet url,
        events := s.events ++ [Event.getReq url token, Event.getResp r] }
      if r.status = 200 then
        (some r.answer, s')
      else if r.status = 401 then
        let s'' := s'.emit Event.logWarn401
        match try_login env fuel 0 s'' with
        | (none, s3) => (none, s3)
        | (some newTok, s3) =>
          if pyFalsy newTok then
            (some none, s3.emit Event.logReloginFailed)
          else
            try_get env fuel url newTok attempts s3
      else
        try_get env fuel url token attempts s'
    else
      (some none, s.emit (Event.logGetExhausted attempts MAX_RETRIES))

/-- The `for url in secret_urls` loop of `main` (`solution.py` lines 66-71):
fetch each url with the same snapshot `token`, log an error and skip on a
falsy result, accumulate truthy answers in order. -/
def mainLoop (env : Env) (fuel : Nat) (token : Option String) :
    List String → List String → St → Option (List String) × St
  | [], answers, s => (some answers, s)
  | url :: rest, answers, s =>
    let s0 := s.emit (Event.fetchCall url token)
    match try_get env fuel url token 0 s0 with
    | (none, s') => (none, s')
    | (some r, s') =>
      if pyFalsy r then
        mainLoop env fuel token rest answers (s'.emit (Event.logSecretError url))
      else
        mainLoop env fuel token rest (answers ++ [r.getD ""]) s'

/-- Embedding of `main` (`solution.py` lines 56-73): one initial login, the
fetch loop, then one info log line per collected answer. -/
def main' (env : Env) (fuel : Nat) : Option (List String) × St :=
  match try_login env fuel 0 St.init with
  | (none, s) => (none, s)
  | (some token, s) =>
    match mainLoop env fuel token SECRET_URLS [] s with
    | (none, s') => (none, s')
    | (some answers, s') =>
      (some answers, answers.foldl (fun st a => st.emit (Event.logInfo a)) s')

/-! ## Trace observations -/

/-- The token carried by a successful (status-200) login response event,
`none` for every other event. -/
def respTok : Event → Option (Option String)
  | Event.loginResp r => if r.status = 200 then some r.access_token else none
  | _ => none

/-- Token of the most recent successful login response in a trace
(`none` when the trace holds no successful login). -/
def lastTok : List Event → Option (Option String)
  | [] => none
  | e :: rest =>
    match lastTok rest with
    | some x => some x
    | none => respTok e

/-- Token of the first successful login response in a trace. -/
def firstTok : List Event → Option (Option String)
  | [] => none
  | e :: rest =>
    match respTok e with
    | some x => some x
    | none => firstTok rest

/-- Is this event a GET request? -/
def isGetReqB : Event → Bool
  | Event.getReq _ _ => true
  | _ => false

/-- Is this event a login POST request? -/
def isLoginReqB : Event → Bool
  | Event.loginReq _ _ => true
  | _ => false

/-- Is this event a `try_get` call boundary? -/
def isFetchCallB : Event → Bool
  | Event.fetchCall _ _ => true
  | _ => false

/-- Is this event an info-level log line? -/
def isInfoB : Event → Bool
  | Event.logInfo _ => true
  | _ => false

/-- Number of GET requests recorded in a trace. -/
def countGets (t : List Event) : Nat := t.countP isGetReqB

/-- Number of login POST requests recorded in a trace. -/
def countLogins (t : List Event) : Nat := t.countP isLoginReqB

theorem lastTok_append (t u : List Event) :
    lastTok (t ++ u) =
      match lastTok u with
      | some x => some x
      | none => lastTok t := by
  induction t with
  | nil => cases h : lastTok u <;> simp [lastTok, h]
  | cons e t ih =>
    cases h : lastTok u <;> simp [lastTok, List.cons_append, ih, h]

theorem firstTok_append (t u : List Event) :
    firstTok (t ++ u) =
      match firstTok t with
      | some x => some x
      | none => firstTok u := by
  induction t with
  | nil => simp [firstTok]
  | cons e t ih =>
    cases h : respTok e <;> simp [firstTok, List.cons_append, ih, h]

theorem lastTok_eq_none (u : List Event) (h : ∀ e ∈ u, respTok e = none) :
    lastTok u = none := by
  induction u with
  | nil => rfl
  | cons e u ih =>
    have he := h e (List.mem_cons_self e u)
    have hu := ih (fun e' he' => h e' (List.mem_cons_of_mem e he'))
    simp [lastTok, hu, he]

theorem firstTok_eq_none (u : List Event) (h : ∀ e ∈ u, respTok e = none) :
    firstTok u = none := by
  induction u with
  | nil => rfl
  | cons e u ih =>
    have he := h e (List.mem_cons_self e u)
    have hu := ih (fun e' he' => h e' (List.mem_cons_of_mem e he'))
    simp [firstTok, hu, he]

theorem lastTok_append_none (t u : List Event) (h : ∀ e ∈ u, respTok e = none) :
    lastTok (t ++ u) = lastTok t := by
  rw [lastTok_append, lastTok_eq_none u h]

theorem firstTok_append_some (t u : List Event) (x : Option String)
    (h : firstTok t = some x) : firstTok (t ++ u) = some x := by
  rw [firstTok_append, h]

theorem firstTok_append_none (t u : List Event) (h : ∀ e ∈ u, respTok e = none) :
    firstTok (t ++ u) = firstTok t := by
  rw [firstTok_append, firstTok_eq_none u h]
  cases firstTok t <;> rfl

/-! ## Shapes of the events each procedure appends -/

/-- The kinds of event `try_login` can append to the trace. -/
def LoginEvt (e : Event) : Prop :=
  e = Event.loginReq LOGIN_URL CREDS ∨ (∃ r, e = Event.loginResp r) ∨
    (∃ k m, e = Event.logLoginExhausted k m)

/-- The kinds of event `try_get` can append to the trace. -/
def GetEvt (e : Event) : Prop :=
  LoginEvt e ∨ (∃ u tk, e = Event.getReq u tk) ∨ (∃ r, e = Event.getResp r) ∨
    e = Event.logWarn401 ∨ e = Event.logReloginFailed ∨
    (∃ k m, e = Event.logGetExhausted k m)

/-- Every login request event ever emitted goes to `LOGIN_URL` with body
`CREDS`; all other events satisfy this trivially. -/
def loginShapeOK : Event → Prop
  | Event.loginReq url body => url = LOGIN_URL ∧ body = CREDS
  | _ => True

theorem loginEvt_not_getReq {e : Event} (h : LoginEvt e) : isGetReqB e = false := by
  rcases h with h | ⟨r, h⟩ | ⟨k, m, h⟩ <;> subst h <;> rfl

theorem loginEvt_not_fetchCall {e : Event} (h : LoginEvt e) : isFetchCallB e = false := by
  rcases h with h | ⟨r, h⟩ | ⟨k, m, h⟩ <;> subst h <;> rfl

theorem loginEvt_shape {e : Event} (h : LoginEvt e) : loginShapeOK e := by
  rcases h with h | ⟨r, h⟩ | ⟨k, m, h⟩ <;> subst h <;> simp [loginShapeOK]

theorem getEvt_not_fetchCall {e : Event} (h : GetEvt e) : isFetchCallB e = false := by
  rcases h with h | ⟨u, tk, h⟩ | ⟨r, h⟩ | h | h | ⟨k, m, h⟩
  · exact loginEvt_not_fetchCall h
  all_goals (subst h; rfl)

theorem getEvt_shape {e : Event} (h : GetEvt e) : loginShapeOK e := by
  rcases h with h | ⟨u, tk, h⟩ | ⟨r, h⟩ | h | h | ⟨k, m, h⟩
  · exact loginEvt_shape h
  all_goals (subst h; simp [loginShapeOK])

/-- Master trace lemma for `try_login`: it only appends login-shaped events,
and when it returns a token (called with a live attempt budget) that token is
the one of the single successful login response it appended, which is both
the first and the last successful login response of the appended segment. -/
theorem try_login_trace (env : Env) :
    ∀ fuel a s, ∃ Δ,
      (try_login env fuel a s).2.events = s.events ++ Δ ∧
      (∀ e ∈ Δ, LoginEvt e) ∧
      ∀ tok, a < MAX_RETRIES → (try_login env fuel a s).1 = some tok →
        lastTok Δ = some tok ∧ firstTok Δ = some tok := by
  intro fuel
  induction fuel with
  | zero =>
    intro a s
    refine ⟨[], by simp [try_login], by simp, ?_⟩
    intro tok _ h
    simp [try_login] at h
  | succ f ih =>
    intro a s
    by_cases ha : a < MAX_RETRIES
    · by_cases h200 : (env.loginResps s.nLogin).status = 200
      · refine ⟨[Event.loginReq LOGIN_URL CREDS, Event.loginResp (env.loginResps s.nLogin)],
          by simp [try_login, ha, h200], ?_, ?_⟩
        · intro e he
          simp at he
          rcases he with rfl | rfl
          · exact Or.inl rfl
          · exact Or.inr (Or.inl ⟨_, rfl⟩)
        · intro tok _ htok
          simp [try_login, ha, h200] at htok
          simp [lastTok, firstTok, respTok, h200, htok]
      · obtain ⟨Δ, h1, h2, h3⟩ := ih a { s with
          nLogin := s.nLogin + 1,
          events := s.events ++ [Event.loginReq LOGIN_URL CREDS,
            Event.loginResp (env.loginResps s.nLogin)] }
        have heq : try_login env (f + 1) a s = try_login env f a { s with
            nLogin := s.nLogin + 1,
            events := s.events ++ [Event.loginReq LOGIN_URL CREDS,
              Event.loginResp (env.loginResps s.nLogin)] } := by
          simp [try_login, ha, h200]
        refine ⟨[Event.loginReq LOGIN_URL CREDS,
            Event.loginResp (env.loginResps s.nLogin)] ++ Δ, ?_, ?_, ?_⟩
        · rw [heq, h1]
          simp
        · intro e he
          rcases List.mem_append.mp he with he | he
          · simp at he
            rcases he with rfl | rfl
            · exact Or.inl rfl
            · exact Or.inr (Or.inl ⟨_, rfl⟩)
          · exact h2 e he
        · intro tok ha' htok
          rw [heq] at htok
          obtain ⟨hl, hf⟩ := h3 tok ha htok
          constructor
          · rw [lastTok_append, hl]
          · rw [firstTok_append]
            have hpre : firstTok [Event.loginReq LOGIN_URL CREDS,
                Event.loginResp (env.loginResps s.nLogin)] = none := by
              simp [firstTok, respTok, h200]
            rw [hpre, hf]
    · refine ⟨[Event.logLoginExhausted a MAX_RETRIES],
        by simp [try_login, ha, St.emit], ?_, ?_⟩
      · intro e he
        simp at he
        subst he
        exact Or.inr (Or.inr ⟨a, MAX_RETRIES, rfl⟩)
      · intro tok ha' _
        exact absurd ha' ha

/-- Master trace lemma for `try_get`: it only appends get/login-shaped
events (in particular never a `fetchCall` boundary and never a malformed
login request). -/
theorem try_get_trace (env : Env) :
    ∀ fuel url tok a s, ∃ Δ,
      (try_get env fuel url tok a s).2.events = s.events ++ Δ ∧
      ∀ e ∈ Δ, GetEvt e := by
  intro fuel
  induction fuel with
  | zero =>
    intro url tok a s
    exact ⟨[], by simp [try_get], by simp⟩
  | succ f ih =>
    intro url tok a s
    by_cases ha : a < MAX_RETRIES
    · by_cases h200 : (env.getResps url (s.nGet url)).status = 200
      · refine ⟨[Event.getReq url tok, Event.getResp (env.getResps url (s.nGet url))],
          by simp [try_get, ha, h200], ?_⟩
        intro e he
        simp at he
        rcases he with rfl | rfl
        · exact Or.inr (Or.inl ⟨_, _, rfl⟩)
        · exact Or.inr (Or.inr (Or.inl ⟨_, rfl⟩))
      · by_cases h401 : (env.getResps url (s.nGet url)).status = 401
        · obtain ⟨Δℓ, hℓ1, hℓ2, hℓ3⟩ := try_login_trace env f 0 { s with
            nGet := bumpGet s.nGet url,
            events := s.events ++ [Event.getReq url tok,
              Event.getResp (env.getResps url (s.nGet url)), Event.logWarn401] }
          rcases hlog : try_login env f 0 { s with
            nGet := bumpGet s.nGet url,
            events := s.events ++ [Event.getReq url tok,
              Event.getResp (env.getResps url (s.nGet url)), Event.logWarn401] }
            with ⟨res, s3⟩
          rw [hlog] at hℓ1
          have hgetΔ : ∀ e ∈ [Event.getReq url tok,
              Event.getResp (env.getResps url (s.nGet url)), Event.logWarn401],
              GetEvt e := by
            intro e he
            simp at he
            rcases he with rfl | rfl | rfl
            · exact Or.inr (Or.inl ⟨_, _, rfl⟩)
            · exact Or.inr (Or.inr (Or.inl ⟨_, rfl⟩))
            · exact Or.inr (Or.inr (Or.inr (Or.inl rfl)))
          cases res with
          | none =>
            refine ⟨[Event.getReq url tok, Event.getResp (env.getResps url (s.nGet url)),
                Event.logWarn401] ++ Δℓ, ?_, ?_⟩
            · have : (try_get env (f + 1) url tok a s).2 = s3 := by
                simp [try_get, ha, h200, h401, St.emit, hlog]
              rw [this]
              simp at hℓ1
              simp [hℓ1]
            · intro e he
              rcases List.mem_append.mp he with he | he
              · exact hgetΔ e he
              · exact Or.inl (hℓ2 e he)
          | some newTok =>
            by_cases hfal : pyFalsy newTok
            · refine ⟨[Event.getReq url tok, Event.getResp (env.getResps url (s.nGet url)),
                  Event.logWarn401] ++ Δℓ ++ [Event.logReloginFailed], ?_, ?_⟩
              · have : (try_get env (f + 1) url tok a s).2 = s3.emit Event.logReloginFailed := by
                  simp [try_get, ha, h200, h401, St.emit, hlog, hfal]
                rw [this]
                simp only [St.emit]
                simp at hℓ1
                simp [hℓ1]
              · intro e he
                rcases List.mem_append.mp he with he | he
                · rcases List.mem_append.mp he with he | he
                  · exact hgetΔ e he
                  · exact Or.inl (hℓ2 e he)
                · simp at he
                  subst he
                  exact Or.inr (Or.inr (Or.inr (Or.inr (Or.inl rfl))))
            · obtain ⟨Δg, hg1, hg2⟩ := ih url newTok a s3
              refine ⟨[Event.getReq url tok, Event.getResp (env.getResps url (s.nGet url)),
                  Event.logWarn401] ++ Δℓ ++ Δg, ?_, ?_⟩
              · have : try_get env (f + 1) url tok a s = try_get env f url newTok a s3 := by
                  simp [try_get, ha, h200, h401, St.emit, hlog, hfal]
                rw [this, hg1]
                simp at hℓ1
                simp [hℓ1]
              · intro e he
                rcases List.mem_append.mp he with he | he
                · rcases List.mem_append.mp he with he | he
                  · exact hgetΔ e he
                  · exact Or.inl (hℓ2 e he)
                · exact hg2 e he
        · obtain ⟨Δg, hg1, hg2⟩ := ih url tok a { s with
            nGet := bumpGet s.nGet url,
            events := s.events ++ [Event.getReq url tok,
              Event.getResp (env.getResps url (s.nGet url))] }
          have heq : try_get env (f + 1) url tok a s = try_get env f url tok a { s with
              nGet := bumpGet s.nGet url,
              events := s.events ++ [Event.getReq url tok,
                Event.getResp (env.getResps url (s.nGet url))] } := by
            simp [try_get, ha, h200, h401]
          refine ⟨[Event.getReq url tok, Event.getResp (env.getResps url (s.nGet url))] ++ Δg,
            ?_, ?_⟩
          · rw [heq, hg1]
            simp
          · intro e he
            rcases List.mem_append.mp he with he | he
            · simp at he
              rcases he with rfl | rfl
              · exact Or.inr (Or.inl ⟨_, _, rfl⟩)
              · exact Or.inr (Or.inr (Or.inl ⟨_, rfl⟩))
            · exact hg2 e he
    · refine ⟨[Event.logGetExhausted a MAX_RETRIES],
        by simp [try_get, ha, St.emit], ?_⟩
      intro e he
      simp at he
      subst he
      exact Or.inr (Or.inr (Or.inr (Or.inr (Or.inr ⟨a, MAX_RETRIES, rfl⟩))))

/-! ## The token invariant over GET requests -/

/-- The spec's §3 invariant, exactly as claimed: the token presented by a GET
request equals the token returned by the most recent successful login before
it, or is null with no prior successful login. -/
def TokClaimed (pre : List Event) (tok : Option String) : Prop :=
  some tok = lastTok pre ∨ (lastTok pre = none ∧ tok = none)

/-- Amended invariant: the token may also be the one of the first successful
login — the orchestrator's snapshot, which `main` keeps presenting even after
a fetch refreshed the token. -/
def TokAmended (pre : List Event) (tok : Option String) : Prop :=
  some tok = lastTok pre ∨ some tok = firstTok pre ∨ (lastTok pre = none ∧ tok = none)

/-- Every GET request recorded in `t` satisfies `P` of the trace before it. -/
def GetsOK (P : List Event → Option String → Prop) (t : List Event) : Prop :=
  ∀ i url tok, t[i]? = some (Event.getReq url tok) → P (t.take i) tok

/-- Every `try_get` call recorded in `t` presents the token of the first
successful login — the orchestrator's snapshot from its single initial
`try_login` call. -/
def FetchOK (t : List Event) : Prop :=
  ∀ i url tok, t[i]? = some (Event.fetchCall url tok) → some tok = firstTok (t.take i)

theorem take_append_of_le {α : Type} (l₁ l₂ : List α) (i : Nat) (h : i ≤ l₁.length) :
    (l₁ ++ l₂).take i = l₁.take i := by
  rw [List.take_append_eq_append_take, Nat.sub_eq_zero_of_le h]
  simp

theorem lastTok_append_some (t u : List Event) (x : Option String)
    (h : lastTok u = some x) : lastTok (t ++ u) = some x := by
  rw [lastTok_append, h]

theorem GetsOK_append (P : List Event → Option String → Prop) (t Δ : List Event)
    (h : GetsOK P t) (hΔ : ∀ e ∈ Δ, isGetReqB e = false) : GetsOK P (t ++ Δ) := by
  intro i url tok hi
  by_cases hlt : i < t.length
  · rw [List.getElem?_append_left hlt] at hi
    rw [take_append_of_le _ _ _ (Nat.le_of_lt hlt)]
    exact h i url tok hi
  · rw [List.getElem?_append_right (Nat.le_of_not_lt hlt)] at hi
    have := hΔ _ (List.getElem?_mem hi)
    simp [isGetReqB] at this

theorem GetsOK_append_getReq (P : List Event → Option String → Prop) (t : List Event)
    (url : String) (tok : Option String) (rest : List Event)
    (h : GetsOK P t) (hP : P t tok) (hrest : ∀ e ∈ rest, isGetReqB e = false) :
    GetsOK P (t ++ Event.getReq url tok :: rest) := by
  intro i u tk hi
  rcases Nat.lt_trichotomy i t.length with hlt | heq | hgt
  · rw [List.getElem?_append_left hlt] at hi
    rw [take_append_of_le _ _ _ (Nat.le_of_lt hlt)]
    exact h i u tk hi
  · subst heq
    rw [List.getElem?_append_right (Nat.le_refl _)] at hi
    simp at hi
    obtain ⟨h1, h2⟩ := hi
    subst h1
    subst h2
    rw [take_append_of_le _ _ _ (Nat.le_refl _)]
    simpa using hP
  · rw [List.getElem?_append_right (Nat.le_of_lt hgt)] at hi
    obtain ⟨k, hk⟩ : ∃ k, i - t.length = k + 1 := ⟨i - t.length - 1, by omega⟩
    rw [hk] at hi
    simp only [List.getElem?_cons_succ] at hi
    have := hrest _ (List.getElem?_mem hi)
    simp [isGetReqB] at this

theorem FetchOK_append (t Δ : List Event) (h : FetchOK t)
    (hΔ : ∀ e ∈ Δ, isFetchCallB e = false) : FetchOK (t ++ Δ) := by
  intro i url tok hi
  by_cases hlt : i < t.length
  · rw [List.getElem?_append_left hlt] at hi
    rw [take_append_of_le _ _ _ (Nat.le_of_lt hlt)]
    exact h i url tok hi
  · rw [List.getElem?_append_right (Nat.le_of_not_lt hlt)] at hi
    have := hΔ _ (List.getElem?_mem hi)
    simp [isFetchCallB] at this

theorem FetchOK_append_fetch (t : List Event) (url : String) (tok : Option String)
    (h : FetchOK t) (hft : firstTok t = some tok) :
    FetchOK (t ++ [Event.fetchCall url tok]) := by
  intro i u tk hi
  by_cases hlt : i < t.length
  · rw [List.getElem?_append_left hlt] at hi
    rw [take_append_of_le _ _ _ (Nat.le_of_lt hlt)]
    exact h i u tk hi
  · rw [List.getElem?_append_right (Nat.le_of_not_lt hlt)] at hi
    have hlen : i - t.length = 0 := by
      rcases Nat.lt_or_ge (i - t.length) 1 with h1 | h1
      · omega
      · exfalso
        rw [List.getElem?_eq_none (by simpa using h1)] at hi
        exact Option.noConfusion hi
    rw [hlen] at hi
    simp at hi
    obtain ⟨h1, h2⟩ := hi
    subst h1
    subst h2
    have : i = t.length := by
      have : i ≤ t.length + 1 := by omega
      omega
    subst this
    rw [take_append_of_le _ _ _ (Nat.le_refl _)]
    simpa using hft.symm

theorem TokAmended_append (t Δ : List Event) (tok : Option String)
    (h : TokAmended t tok) (hΔ : ∀ e ∈ Δ, respTok e = none) :
    TokAmended (t ++ Δ) tok := by
  rcases h with h | h | ⟨h1, h2⟩
  · exact Or.inl (by rw [lastTok_append_none t Δ hΔ]; exact h)
  · exact Or.inr (Or.inl (by rw [firstTok_append_none t Δ hΔ]; exact h))
  · exact Or.inr (Or.inr ⟨by rw [lastTok_append_none t Δ hΔ]; exact h1, h2⟩)

/-- `try_get` preserves the amended token invariant: provided its argument
token satisfies `TokAmended` of the current trace, every GET request it
performs does too. -/
theorem try_get_inv (env : Env) :
    ∀ fuel url tok a s, TokAmended s.events tok → GetsOK TokAmended s.events →
      GetsOK TokAmended (try_get env fuel url tok a s).2.events := by
  intro fuel
  induction fuel with
  | zero =>
    intro url tok a s _ h
    simpa [try_get] using h
  | succ f ih =>
    intro url tok a s htok hinv
    by_cases ha : a < MAX_RETRIES
    · by_cases h200 : (env.getResps url (s.nGet url)).status = 200
      · have hev : (try_get env (f + 1) url tok a s).2.events =
            s.events ++ [Event.getReq url tok,
              Event.getResp (env.getResps url (s.nGet url))] := by
          simp [try_get, ha, h200]
        rw [hev]
        refine GetsOK_append_getReq _ _ _ _ _ hinv htok ?_
        intro e he
        simp at he
        subst he
        rfl
      · have hmidinv : GetsOK TokAmended (s.events ++ [Event.getReq url tok,
            Event.getResp (env.getResps url (s.nGet url))]) := by
          refine GetsOK_append_getReq _ _ _ _ _ hinv htok ?_
          intro e he
          simp at he
          subst he
          rfl
        have hmidtok : TokAmended (s.events ++ [Event.getReq url tok,
            Event.getResp (env.getResps url (s.nGet url))]) tok := by
          refine TokAmended_append _ _ _ htok ?_
          intro e he
          simp at he
          rcases he with rfl | rfl <;> rfl
        by_cases h401 : (env.getResps url (s.nGet url)).status = 401
        · obtain ⟨Δℓ, hℓ1, hℓ2, hℓ3⟩ := try_login_trace env f 0 { s with
            nGet := bumpGet s.nGet url,
            events := s.events ++ [Event.getReq url tok,
              Event.getResp (env.getResps url (s.nGet url)), Event.logWarn401] }
          rcases hlog : try_login env f 0 { s with
            nGet := bumpGet s.nGet url,
            events := s.events ++ [Event.getReq url tok,
              Event.getResp (env.getResps url (s.nGet url)), Event.logWarn401] }
            with ⟨res, s3⟩
          rw [hlog] at hℓ1 hℓ3
          simp only at hℓ1
          have hwarninv : GetsOK TokAmended (s.events ++ [Event.getReq url tok,
              Event.getResp (env.getResps url (s.nGet url)), Event.logWarn401]) := by
            refine GetsOK_append_getReq _ _ _ _ _ hinv htok ?_
            intro e he
            simp at he
            rcases he with rfl | rfl <;> rfl
          have hs3inv : GetsOK TokAmended s3.events := by
            rw [hℓ1]
            exact GetsOK_append _ _ _ hwarninv (fun e he => loginEvt_not_getReq (hℓ2 e he))
          cases res with
          | none =>
            have hres : (try_get env (f + 1) url tok a s).2 = s3 := by
              simp [try_get, ha, h200, h401, St.emit, hlog]
            rw [hres]
            exact hs3inv
          | some newTok =>
            by_cases hfal : pyFalsy newTok
            · have hres : (try_get env (f + 1) url tok a s).2 =
                  s3.emit Event.logReloginFailed := by
                simp [try_get, ha, h200, h401, St.emit, hlog, hfal]
              rw [hres]
              refine GetsOK_append _ _ [Event.logReloginFailed] hs3inv ?_
              intro e he
              simp at he
              subst he
              rfl
            · have hres : try_get env (f + 1) url tok a s =
                  try_get env f url newTok a s3 := by
                simp [try_get, ha, h200, h401, St.emit, hlog, hfal]
              rw [hres]
              have hs3tok : TokAmended s3.events newTok := by
                obtain ⟨hl, _⟩ := hℓ3 newTok (by decide) rfl
                exact Or.inl (by rw [hℓ1, lastTok_append, hl])
              exact ih url newTok a s3 hs3tok hs3inv
        · have hres : try_get env (f + 1) url tok a s =
              try_get env f url tok a { s with
                nGet := bumpGet s.nGet url,
                events := s.events ++ [Event.getReq url tok,
                  Event.getResp (env.getResps url (s.nGet url))] } := by
            simp [try_get, ha, h200, h401]
          rw [hres]
          exact ih url tok a _ hmidtok hmidinv
    · have hres : (try_get env (f + 1) url tok a s).2 =
          s.emit (Event.logGetExhausted a MAX_RETRIES) := by
        simp [try_get, ha]
      rw [hres]
      refine GetsOK_append _ _ [Event.logGetExhausted a MAX_RETRIES] hinv ?_
      intro e he
      simp at he
      subst he
      rfl

theorem GetsOK_nil (P : List Event → Option String → Prop) : GetsOK P [] := by
  intro i url tok h
  simp at h

theorem FetchOK_nil : FetchOK [] := by
  intro i url tok h
  simp at h

/-- The fetch loop preserves the amended token invariant: `main` presents the
same snapshot token (the first successful login's) to every fetch. -/
theorem mainLoop_inv (env : Env) (fuel : Nat) (tok : Option String) :
    ∀ urls answers s, firstTok s.events = some tok → GetsOK TokAmended s.events →
      GetsOK TokAmended (mainLoop env fuel tok urls answers s).2.events := by
  intro urls
  induction urls with
  | nil =>
    intro answers s _ h
    simpa [mainLoop] using h
  | cons url rest ih =>
    intro answers s hft hinv
    have hft0 : firstTok (s.events ++ [Event.fetchCall url tok]) = some tok :=
      firstTok_append_some _ _ _ hft
    have hinv0 : GetsOK TokAmended (s.events ++ [Event.fetchCall url tok]) := by
      refine GetsOK_append _ _ _ hinv ?_
      intro e he
      simp at he
      subst he
      rfl
    have htok0 : TokAmended (s.events ++ [Event.fetchCall url tok]) tok :=
      Or.inr (Or.inl hft0.symm)
    obtain ⟨Δg, hg1, hg2⟩ := try_get_trace env fuel url tok 0
      { s with events := s.events ++ [Event.fetchCall url tok] }
    have hginv := try_get_inv env fuel url tok 0
      { s with events := s.events ++ [Event.fetchCall url tok] } htok0 hinv0
    rcases hres : try_get env fuel url tok 0
      { s with events := s.events ++ [Event.fetchCall url tok] } with ⟨r, s'⟩
    rw [hres] at hg1 hginv
    simp only at hg1 hginv
    have hft' : firstTok s'.events = some tok := by
      rw [hg1]
      exact firstTok_append_some _ _ _ hft0
    cases r with
    | none =>
      have hout : (mainLoop env fuel tok (url :: rest) answers s).2 = s' := by
        simp [mainLoop, St.emit, hres]
      rw [hout]
      exact hginv
    | some rr =>
      by_cases hfal : pyFalsy rr
      · have hout : mainLoop env fuel tok (url :: rest) answers s =
            mainLoop env fuel tok rest answers (s'.emit (Event.logSecretError url)) := by
          simp [mainLoop, St.emit, hres, hfal]
        rw [hout]
        refine ih answers _ ?_ ?_
        · simp only [St.emit]
          exact firstTok_append_some _ _ _ hft'
        · simp only [St.emit]
          refine GetsOK_append _ _ _ hginv ?_
          intro e he
          simp at he
          subst he
          rfl
      · have hout : mainLoop env fuel tok (url :: rest) answers s =
            mainLoop env fuel tok rest (answers ++ [rr.getD ""]) s' := by
          simp [mainLoop, St.emit, hres, hfal]
        rw [hout]
        exact ih _ s' hft' hginv

/-- The fetch loop presents the snapshot token at every `try_get` boundary. -/
theorem mainLoop_fetchOK (env : Env) (fuel : Nat) (tok : Option String) :
    ∀ urls answers s, firstTok s.events = some tok → FetchOK s.events →
      FetchOK (mainLoop env fuel tok urls answers s).2.events := by
  intro urls
  induction urls with
  | nil =>
    intro answers s _ h
    simpa [mainLoop] using h
  | cons url rest ih =>
    intro answers s hft hfok
    have hft0 : firstTok (s.events ++ [Event.fetchCall url tok]) = some tok :=
      firstTok_append_some _ _ _ hft
    have hfok0 : FetchOK (s.events ++ [Event.fetchCall url tok]) :=
      FetchOK_append_fetch _ _ _ hfok hft
    obtain ⟨Δg, hg1, hg2⟩ := try_get_trace env fuel url tok 0
      { s with events := s.events ++ [Event.fetchCall url tok] }
    rcases hres : try_get env fuel url tok 0
      { s with events := s.events ++ [Event.fetchCall url tok] } with ⟨r, s'⟩
    rw [hres] at hg1
    simp only at hg1
    have hft' : firstTok s'.events = some tok := by
      rw [hg1]
      exact firstTok_append_some _ _ _ hft0
    have hfok' : FetchOK s'.events := by
      rw [hg1]
      exact FetchOK_append _ _ hfok0 (fun e he => getEvt_not_fetchCall (hg2 e he))
    cases r with
    | none =>
      have hout : (mainLoop env fuel tok (url :: rest) answers s).2 = s' := by
        simp [mainLoop, St.emit, hres]
      rw [hout]
      exact hfok'
    | some rr =>
      by_cases hfal : pyFalsy rr
      · have hout : mainLoop env fuel tok (url :: rest) answers s =
            mainLoop env fuel tok rest answers (s'.emit (Event.logSecretError url)) := by
          simp [mainLoop, St.emit, hres, hfal]
        rw [hout]
        refine ih answers _ ?_ ?_
        · simp only [St.emit]
          exact firstTok_append_some _ _ _ hft'
        · simp only [St.emit]
          refine FetchOK_append _ _ hfok' ?_
          intro e he
          simp at he
          subst he
          rfl
      · have hout : mainLoop env fuel tok (url :: rest) answers s =
            mainLoop env fuel tok rest (answers ++ [rr.getD ""]) s' := by
          simp [mainLoop, St.emit, hres, hfal]
        rw [hout]
        exact ih _ s' hft' hfok'

/-- The fetch loop only appends events whose login requests (if any) carry
the fixed url and credentials. -/
theorem mainLoop_shape (env : Env) (fuel : Nat) (tok : Option String) :
    ∀ urls answers s, ∃ Δ,
      (mainLoop env fuel tok urls answers s).2.events = s.events ++ Δ ∧
      ∀ e ∈ Δ, loginShapeOK e := by
  intro urls
  induction urls with
  | nil =>
    intro answers s
    exact ⟨[], by simp [mainLoop], by simp⟩
  | cons url rest ih =>
    intro answers s
    obtain ⟨Δg, hg1, hg2⟩ := try_get_trace env fuel url tok 0
      { s with events := s.events ++ [Event.fetchCall url tok] }
    rcases hres : try_get env fuel url tok 0
      { s with events := s.events ++ [Event.fetchCall url tok] } with ⟨r, s'⟩
    rw [hres] at hg1
    simp only at hg1
    cases r with
    | none =>
      refine ⟨[Event.fetchCall url tok] ++ Δg, ?_, ?_⟩
      · have hout : (mainLoop env fuel tok (url :: rest) answers s).2 = s' := by
          simp [mainLoop, St.emit, hres]
        rw [hout, hg1]
        simp
      · intro e he
        rcases List.mem_append.mp he with he | he
        · simp at he
          subst he
          simp [loginShapeOK]
        · exact getEvt_shape (hg2 e he)
    | some rr =>
      by_cases hfal : pyFalsy rr
      · obtain ⟨Δm, hm1, hm2⟩ := ih answers (s'.emit (Event.logSecretError url))
        refine ⟨[Event.fetchCall url tok] ++ Δg ++ [Event.logSecretError url] ++ Δm, ?_, ?_⟩
        · have hout : mainLoop env fuel tok (url :: rest) answers s =
              mainLoop env fuel tok rest answers (s'.emit (Event.logSecretError url)) := by
            simp [mainLoop, St.emit, hres, hfal]
          rw [hout, hm1]
          simp only [St.emit]
          rw [hg1]
          simp
        · intro e he
          simp only [List.mem_append] at he
          rcases he with ((he | he) | he) | he
          · simp at he
            subst he
            simp [loginShapeOK]
          · exact getEvt_shape (hg2 e he)
          · simp at he
            subst he
            simp [loginShapeOK]
          · exact hm2 e he
      · obtain ⟨Δm, hm1, hm2⟩ := ih (answers ++ [rr.getD ""]) s'
        refine ⟨[Event.fetchCall url tok] ++ Δg ++ Δm, ?_, ?_⟩
        · have hout : mainLoop env fuel tok (url :: rest) answers s =
              mainLoop env fuel tok rest (answers ++ [rr.getD ""]) s' := by
            simp [mainLoop, St.emit, hres, hfal]
          rw [hout, hm1, hg1]
          simp
        · intro e he
          simp only [List.mem_append] at he
          rcases he with (he | he) | he
          · simp at he
            subst he
            simp [loginShapeOK]
          · exact getEvt_shape (hg2 e he)
          · exact hm2 e he

/-- Reporting the answers appends exactly one info log line per answer. -/
theorem foldl_logInfo_events :
    ∀ (answers : List String) (st : St),
      (answers.foldl (fun st a => st.emit (Event.logInfo a)) st).events =
        st.events ++ answers.map Event.logInfo := by
  intro answers
  induction answers with
  | nil =>
    intro st
    simp
  | cons a rest ih =>
    intro st
    rw [List.foldl_cons, ih]
    simp [St.emit]

/-! ## Concrete environments for witnesses and counterexamples -/

/-- Login endpoint always answers 401 (never a 200). -/
def env401 : Env := ⟨fun _ => ⟨401, none⟩, fun _ _ => ⟨200, some "A"⟩⟩

/-- Resource endpoints always answer 500 (neither 200 nor 401). -/
def env500 : Env := ⟨fun _ => ⟨200, some "T"⟩, fun _ _ => ⟨500, none⟩⟩

/-- First login succeeds with token T1, every later login answers 401; the
second resource always answers 401, the others succeed at once. -/
def envC3 : Env :=
  ⟨fun n => if n = 0 then ⟨200, some "T1"⟩ else ⟨401, none⟩,
   fun url _ =>
     if url = "http://localhost:5000/api/secret1" then ⟨200, some "A1"⟩
     else if url = "http://localhost:5000/api/secret2" then ⟨401, none⟩
     else ⟨200, some "A3"⟩⟩

/-- First login gives T1, every later login gives T2; the first resource
answers 401 once (forcing a re-login) and then succeeds; the others succeed
at once. -/
def envC4 : Env :=
  ⟨fun n => if n = 0 then ⟨200, some "T1"⟩ else ⟨200, some "T2"⟩,
   fun url n =>
     if url = "http://localhost:5000/api/secret1" then
       (if n = 0 then ⟨401, none⟩ else ⟨200, some "A1"⟩)
     else if url = "http://localhost:5000/api/secret2" then ⟨200, some "A2"⟩
     else ⟨200, some "A3"⟩⟩

/-- Happy path: login always succeeds with token `t`; the three resources
answer 200 with `a1`, `a2`, `a3` respectively. -/
def env9 (t a1 a2 a3 : String) : Env :=
  ⟨fun _ => ⟨200, some t⟩,
   fun url _ =>
     if url = "http://localhost:5000/api/secret1" then ⟨200, some a1⟩
     else if url = "http://localhost:5000/api/secret2" then ⟨200, some a2⟩
     else ⟨200, some a3⟩⟩

/-- Like the happy path, but the second resource's `answer` field is the
empty string. -/
def env10 (t a1 a3 : String) : Env :=
  ⟨fun _ => ⟨200, some t⟩,
   fun url _ =>
     if url = "http://localhost:5000/api/secret1" then ⟨200, some a1⟩
     else if url = "http://localhost:5000/api/secret2" then ⟨200, some ""⟩
     else ⟨200, some a3⟩⟩

/-! ## Claims -/

/-- C1: the claim says that when the login endpoint never returns 200,
`try_login` terminates after at most `MAX_RETRIES` attempts, returns Absent
and logs an error mentioning `MAX_RETRIES`.  The code does the opposite:
because `attempts` is never incremented, for every fuel bound the loop is
still running (first component `none`), having issued exactly one POST per
fuel unit — the attempt count is unbounded, nothing is ever returned and the
exhaustion log line is unreachable. -/
theorem claim_C1_divergence (env : Env) (hno : ∀ n, (env.loginResps n).status ≠ 200) :
    ∀ fuel a s, a < MAX_RETRIES →
      (try_login env fuel a s).1 = none ∧
      countLogins (try_login env fuel a s).2.events = countLogins s.events + fuel := by
  intro fuel
  induction fuel with
  | zero =>
    intro a s _
    exact ⟨rfl, by simp [try_login]⟩
  | succ f ih =>
    intro a s ha
    have h200 := hno s.nLogin
    have heq : try_login env (f + 1) a s = try_login env f a { s with
        nLogin := s.nLogin + 1,
        events := s.events ++ [Event.loginReq LOGIN_URL CREDS,
          Event.loginResp (env.loginResps s.nLogin)] } := by
      simp [try_login, ha, h200]
    obtain ⟨h1, h2⟩ := ih a { s with
        nLogin := s.nLogin + 1,
        events := s.events ++ [Event.loginReq LOGIN_URL CREDS,
          Event.loginResp (env.loginResps s.nLogin)] } ha
    refine ⟨by rw [heq]; exact h1, ?_⟩
    rw [heq, h2]
    have hc : countLogins (s.events ++ [Event.loginReq LOGIN_URL CREDS,
        Event.loginResp (env.loginResps s.nLogin)]) = countLogins s.events + 1 := by
      simp [countLogins, List.countP_append, List.countP_cons, isLoginReqB]
    simp only at hc ⊢
    rw [hc]
    omega

/-- C1 witness: with every login response a 401, after 7 fuel units the
call is still looping and has issued 7 POSTs. -/
theorem claim_C1_witness :
    0 < MAX_RETRIES ∧
      (try_login env401 7 0 St.init).1 = none ∧
      countLogins (try_login env401 7 0 St.init).2.events = countLogins St.init.events + 7 :=
  ⟨by decide,
   claim_C1_divergence env401 (fun n => by simp [env401]) 7 0 St.init (by decide)⟩

/-- C2: the claim says the total number of GET attempts in a `try_get` call
never exceeds `MAX_RETRIES`, with an error log and Absent on exhaustion.  In
fact, when the resource answers with a status that is neither 200 nor 401,
the loop never advances `attempts`: for every fuel bound the call is still
looping and has issued exactly one GET per fuel unit, so with fuel
`MAX_RETRIES + 1` it has already made more GETs than the claimed bound. -/
theorem claim_C2_divergence (env : Env) (url : String)
    (hno : ∀ n, (env.getResps url n).status ≠ 200 ∧ (env.getResps url n).status ≠ 401) :
    ∀ fuel tok a s, a < MAX_RETRIES →
      (try_get env fuel url tok a s).1 = none ∧
      countGets (try_get env fuel url tok a s).2.events = countGets s.events + fuel := by
  intro fuel
  induction fuel with
  | zero =>
    intro tok a s _
    exact ⟨rfl, by simp [try_get]⟩
  | succ f ih =>
    intro tok a s ha
    obtain ⟨h200, h401⟩ := hno (s.nGet url)
    have heq : try_get env (f + 1) url tok a s = try_get env f url tok a { s with
        nGet := bumpGet s.nGet url,
        events := s.events ++ [Event.getReq url tok,
          Event.getResp (env.getResps url (s.nGet url))] } := by
      simp [try_get, ha, h200, h401]
    obtain ⟨h1, h2⟩ := ih tok a { s with
        nGet := bumpGet s.nGet url,
        events := s.events ++ [Event.getReq url tok,
          Event.getResp (env.getResps url (s.nGet url))] } ha
    refine ⟨by rw [heq]; exact h1, ?_⟩
    rw [heq, h2]
    have hc : countGets (s.events ++ [Event.getReq url tok,
        Event.getResp (env.getResps url (s.nGet url))]) = countGets s.events + 1 := by
      simp [countGets, List.countP_append, List.countP_cons, isGetReqB]
    simp only at hc ⊢
    rw [hc]
    omega

/-- C2 witness: with every resource response a 500, after `MAX_RETRIES + 1`
fuel units the call is still looping and has already issued 6 GETs — more
than the claimed bound of `MAX_RETRIES = 5` — with no error logged and no
return. -/
theorem claim_C2_witness :
    0 < MAX_RETRIES ∧ MAX_RETRIES < 6 ∧
      (try_get env500 6 "http://localhost:5000/api/secret1" (some "T") 0 St.init).1 = none ∧
      countGets (try_get env500 6 "http://localhost:5000/api/secret1"
        (some "T") 0 St.init).2.events = countGets St.init.events + 6 :=
  ⟨by decide, by decide,
   claim_C2_divergence env500 "http://localhost:5000/api/secret1"
     (fun n => ⟨by simp [env500], by simp [env500]⟩) 6 (some "T") 0 St.init (by decide)⟩

/-- In `envC3`, once one login POST has been made, `try_login` never
terminates: every further login response is a 401 and `attempts` never
advances. -/
theorem envC3_login_div :
    ∀ fuel a s, a < MAX_RETRIES → 1 ≤ s.nLogin →
      (try_login envC3 fuel a s).1 = none := by
  intro fuel
  induction fuel with
  | zero =>
    intro a s _ _
    rfl
  | succ f ih =>
    intro a s ha h1
    have hz : s.nLogin ≠ 0 := by omega
    have h200 : ¬(envC3.loginResps s.nLogin).status = 200 := by
      simp [envC3, hz]
    have heq : try_login envC3 (f + 1) a s = try_login envC3 f a { s with
        nLogin := s.nLogin + 1,
        events := s.events ++ [Event.loginReq LOGIN_URL CREDS,
          Event.loginResp (envC3.loginResps s.nLogin)] } := by
      simp [try_login, ha, h200]
    rw [heq]
    exact ih a _ ha (by simp)

/-- In `envC3`, once one login POST has been made, a fetch of the second
resource never terminates: the resource keeps answering 401 and the
re-login loops forever. -/
theorem envC3_get2_div :
    ∀ fuel tok a s, a < MAX_RETRIES → 1 ≤ s.nLogin →
      (try_get envC3 fuel "http://localhost:5000/api/secret2" tok a s).1 = none := by
  intro fuel tok a s ha h1
  cases fuel with
  | zero => rfl
  | succ f =>
    have hr : envC3.getResps "http://localhost:5000/api/secret2"
        (s.nGet "http://localhost:5000/api/secret2") = ⟨401, none⟩ := by
      simp +decide [envC3]
    rcases hlog : try_login envC3 f 0 { s with
        nGet := bumpGet s.nGet "http://localhost:5000/api/secret2",
        events := s.events ++ [Event.getReq "http://localhost:5000/api/secret2" tok,
          Event.getResp ⟨401, none⟩, Event.logWarn401] }
      with ⟨res, s3⟩
    cases res with
    | none =>
      simp [try_get, ha, hr, St.emit, hlog]
    | some newTok =>
      exfalso
      have hdiv := envC3_login_div f 0 { s with
        nGet := bumpGet s.nGet "http://localhost:5000/api/secret2",
        events := s.events ++ [Event.getReq "http://localhost:5000/api/secret2" tok,
          Event.getResp ⟨401, none⟩, Event.logWarn401] }
        (by decide) (by simpa using h1)
      rw [hlog] at hdiv
      exact Option.noConfusion hdiv

/-- C3: the claim says that with the second resource always answering 401
and re-login never succeeding again, `main` finishes with output [A1, A3]
and an error logged for the skipped resource.  In fact the run never
finishes: while recovering from the 401 on the second resource, `try_login`
loops forever (no later login response is a 200 and `attempts` never
advances), so for every fuel bound `main` is still running and no output is
ever produced. -/
theorem claim_C3_divergence : ∀ fuel, (main' envC3 fuel).1 = none := by
  intro fuel
  cases fuel with
  | zero => rfl
  | succ f =>
    have hstep : main' envC3 (f + 1) =
        match mainLoop envC3 (f + 1) (some "T1")
          ["http://localhost:5000/api/secret2", "http://localhost:5000/api/secret3"]
          ["A1"]
          ⟨1, bumpGet (fun _ => 0) "http://localhost:5000/api/secret1",
            [Event.loginReq LOGIN_URL CREDS, Event.loginResp ⟨200, some "T1"⟩,
             Event.fetchCall "http://localhost:5000/api/secret1" (some "T1"),
             Event.getReq "http://localhost:5000/api/secret1" (some "T1"),
             Event.getResp ⟨200, some "A1"⟩]⟩ with
        | (none, s') => (none, s')
        | (some answers, s') =>
          (some answers, answers.foldl (fun st a => st.emit (Event.logInfo a)) s') := by
      rfl
    have hstep2 : mainLoop envC3 (f + 1) (some "T1")
        ["http://localhost:5000/api/secret2", "http://localhost:5000/api/secret3"]
        ["A1"]
        ⟨1, bumpGet (fun _ => 0) "http://localhost:5000/api/secret1",
          [Event.loginReq LOGIN_URL CREDS, Event.loginResp ⟨200, some "T1"⟩,
           Event.fetchCall "http://localhost:5000/api/secret1" (some "T1"),
           Event.getReq "http://localhost:5000/api/secret1" (some "T1"),
           Event.getResp ⟨200, some "A1"⟩]⟩ =
        match try_get envC3 (f + 1) "http://localhost:5000/api/secret2" (some "T1") 0
          ⟨1, bumpGet (fun _ => 0) "http://localhost:5000/api/secret1",
            [Event.loginReq LOGIN_URL CREDS, Event.loginResp ⟨200, some "T1"⟩,
             Event.fetchCall "http://localhost:5000/api/secret1" (some "T1"),
             Event.getReq "http://localhost:5000/api/secret1" (some "T1"),
             Event.getResp ⟨200, some "A1"⟩,
             Event.fetchCall "http://localhost:5000/api/secret2" (some "T1")]⟩ with
        | (none, s') => (none, s')
        | (some r, s') =>
          if pyFalsy r then
            mainLoop envC3 (f + 1) (some "T1") ["http://localhost:5000/api/secret3"]
              ["A1"] (s'.emit (Event.logSecretError "http://localhost:5000/api/secret2"))
          else
            mainLoop envC3 (f + 1) (some "T1") ["http://localhost:5000/api/secret3"]
              (["A1"] ++ [r.getD ""]) s' := by
      rfl
    rcases hres : try_get envC3 (f + 1) "http://localhost:5000/api/secret2" (some "T1") 0
        ⟨1, bumpGet (fun _ => 0) "http://localhost:5000/api/secret1",
          [Event.loginReq LOGIN_URL CREDS, Event.loginResp ⟨200, some "T1"⟩,
           Event.fetchCall "http://localhost:5000/api/secret1" (some "T1"),
           Event.getReq "http://localhost:5000/api/secret1" (some "T1"),
           Event.getResp ⟨200, some "A1"⟩,
           Event.fetchCall "http://localhost:5000/api/secret2" (some "T1")]⟩
      with ⟨res, sx⟩
    have hd := envC3_get2_div (f + 1) (some "T1") 0
      ⟨1, bumpGet (fun _ => 0) "http://localhost:5000/api/secret1",
        [Event.loginReq LOGIN_URL CREDS, Event.loginResp ⟨200, some "T1"⟩,
         Event.fetchCall "http://localhost:5000/api/secret1" (some "T1"),
         Event.getReq "http://localhost:5000/api/secret1" (some "T1"),
         Event.getResp ⟨200, some "A1"⟩,
         Event.fetchCall "http://localhost:5000/api/secret2" (some "T1")]⟩
      (by decide) (by decide)
    rw [hres] at hd
    simp at hd
    subst hd
    rw [hstep, hstep2, hres]

/-- Environment for the C6 witness: resource answers 401 once then 200 with
answer A; login always succeeds with token T2. -/
def envC6 : Env :=
  ⟨fun _ => ⟨200, some "T2"⟩,
   fun _ n => if n = 0 then ⟨401, none⟩ else ⟨200, some "A"⟩⟩

/-- Environment for the C7 witness: resource always answers 401; login
answers 200 but with no `access_token` field, so `try_login` returns
Absent. -/
def envC7 : Env :=
  ⟨fun _ => ⟨200, none⟩,
   fun _ _ => ⟨401, none⟩⟩

/-- Environment for the C6 witness whose re-login needs two POSTs: the
resource answers 401 once then 200 with answer A; the login endpoint answers
500 first, then 200 with token T2. -/
def envC6two : Env :=
  ⟨fun n => if n = 0 then ⟨500, none⟩ else ⟨200, some "T2"⟩,
   fun _ n => if n = 0 then ⟨401, none⟩ else ⟨200, some "A"⟩⟩

/-- `try_login` never touches the per-url GET counters. -/
theorem try_login_nGet (env : Env) :
    ∀ fuel a s, (try_login env fuel a s).2.nGet = s.nGet := by
  intro fuel
  induction fuel with
  | zero =>
    intro a s
    rfl
  | succ f ih =>
    intro a s
    by_cases ha : a < MAX_RETRIES
    · by_cases h200 : (env.loginResps s.nLogin).status = 200
      · simp [try_login, ha, h200]
      · have heq : try_login env (f + 1) a s = try_login env f a { s with
            nLogin := s.nLogin + 1,
            events := s.events ++ [Event.loginReq LOGIN_URL CREDS,
              Event.loginResp (env.loginResps s.nLogin)] } := by
          simp [try_login, ha, h200]
        rw [heq]
        exact ih a _
    · simp [try_login, ha, St.emit]

/-- C6: when the first GET of a `try_get` call answers 401, the single
401-triggered `try_login` invocation returns a usable token `t` (however
many POSTs that invocation needed), and the retried GET answers 200, the
call returns that response's `answer` field; the final state is the login
invocation's state `s₂` extended by exactly the one retried GET presenting
the fresh token, and `s₂` holds only the one original GET request — so the
call invokes login exactly once and makes exactly one retry. -/
theorem claim_C6 (env : Env) (f : Nat) (url : String) (tok : Option String)
    (s : St) (b : Option String) (t : String) (ans : Option String) (s₂ : St)
    (h1 : env.getResps url (s.nGet url) = ⟨401, b⟩)
    (h2 : try_login env (f + 1) 0 { s with
        nGet := bumpGet s.nGet url,
        events := s.events ++ [Event.getReq url tok, Event.getResp ⟨401, b⟩,
          Event.logWarn401] } = (some (some t), s₂))
    (h3 : t ≠ "")
    (h4 : env.getResps url (s.nGet url + 1) = ⟨200, ans⟩) :
    try_get env (f + 2) url tok 0 s = (some ans, { s₂ with
      nGet := bumpGet s₂.nGet url,
      events := s₂.events ++ [Event.getReq url (some t), Event.getResp ⟨200, ans⟩] }) ∧
    countGets s₂.events = countGets s.events + 1 := by
  have hng : s₂.nGet = bumpGet s.nGet url := by
    have hpres := try_login_nGet env (f + 1) 0 { s with
      nGet := bumpGet s.nGet url,
      events := s.events ++ [Event.getReq url tok, Event.getResp ⟨401, b⟩,
        Event.logWarn401] }
    rw [h2] at hpres
    simpa using hpres
  have hng1 : s₂.nGet url = s.nGet url + 1 := by
    rw [hng]
    simp [bumpGet]
  have hstep : try_get env (f + 2) url tok 0 s = try_get env (f + 1) url (some t) 0 s₂ := by
    simp [try_get, MAX_RETRIES, h1, St.emit, h2, pyFalsy, h3]
  have hstep2 : try_get env (f + 1) url (some t) 0 s₂ = (some ans, { s₂ with
      nGet := bumpGet s₂.nGet url,
      events := s₂.events ++ [Event.getReq url (some t), Event.getResp ⟨200, ans⟩] }) := by
    simp [try_get, MAX_RETRIES, hng1, h4]
  refine ⟨by rw [hstep, hstep2], ?_⟩
  obtain ⟨Δ, hΔ1, hΔ2, _⟩ := try_login_trace env (f + 1) 0 { s with
    nGet := bumpGet s.nGet url,
    events := s.events ++ [Event.getReq url tok, Event.getResp ⟨401, b⟩,
      Event.logWarn401] }
  rw [h2] at hΔ1
  simp only at hΔ1
  rw [hΔ1]
  have hz : List.countP isGetReqB Δ = 0 := by
    refine List.countP_eq_zero.mpr ?_
    intro e he
    simp [loginEvt_not_getReq (hΔ2 e he)]
  simp [countGets, List.countP_append, List.countP_cons, isGetReqB, hz]

/-- C6 witness: in `envC6two` the 401-triggered login invocation needs two
POSTs (a 500 then a 200 with T2); after it, exactly one retried GET presents
T2 and the call returns A. -/
theorem claim_C6_witness :
    envC6two.getResps "u" (St.init.nGet "u") = ⟨401, none⟩ ∧
    ("T2" : String) ≠ "" ∧
    envC6two.getResps "u" (St.init.nGet "u" + 1) = ⟨200, some "A"⟩ ∧
    (try_get envC6two 3 "u" none 0 St.init = (some (some "A"),
      ⟨2, bumpGet (bumpGet (fun _ => 0) "u") "u",
        [Event.getReq "u" none, Event.getResp ⟨401, none⟩, Event.logWarn401,
         Event.loginReq LOGIN_URL CREDS, Event.loginResp ⟨500, none⟩,
         Event.loginReq LOGIN_URL CREDS, Event.loginResp ⟨200, some "T2"⟩,
         Event.getReq "u" (some "T2"), Event.getResp ⟨200, some "A"⟩]⟩) ∧
     countGets [Event.getReq "u" none, Event.getResp ⟨401, none⟩, Event.logWarn401,
       Event.loginReq LOGIN_URL CREDS, Event.loginResp ⟨500, none⟩,
       Event.loginReq LOGIN_URL CREDS, Event.loginResp ⟨200, some "T2"⟩] =
       countGets St.init.events + 1) :=
  ⟨by decide, by decide, by decide,
   claim_C6 envC6two 1 "u" none St.init none "T2" (some "A")
     ⟨2, bumpGet (fun _ => 0) "u",
      [Event.getReq "u" none, Event.getResp ⟨401, none⟩, Event.logWarn401,
       Event.loginReq LOGIN_URL CREDS, Event.loginResp ⟨500, none⟩,
       Event.loginReq LOGIN_URL CREDS, Event.loginResp ⟨200, some "T2"⟩]⟩
     (by decide) rfl (by decide) (by decide)⟩

/-- C7: when the first GET answers 401 and the re-login performed during the
recovery returns Absent, `try_get` logs the failure and returns Absent at
once: the final state is the login's state plus the single error log line,
and the whole call made exactly one GET request — no further attempts. -/
theorem claim_C7 (env : Env) (f : Nat) (url : String) (tok : Option String)
    (s : St) (b : Option String) (s₂ : St)
    (h1 : env.getResps url (s.nGet url) = ⟨401, b⟩)
    (h2 : try_login env (f + 1) 0 { s with
        nGet := bumpGet s.nGet url,
        events := s.events ++ [Event.getReq url tok, Event.getResp ⟨401, b⟩,
          Event.logWarn401] } = (some none, s₂)) :
    try_get env (f + 2) url tok 0 s = (some none, s₂.emit Event.logReloginFailed) ∧
    countGets s₂.events = countGets s.events + 1 := by
  constructor
  · simp [try_get, MAX_RETRIES, h1, St.emit, h2, pyFalsy]
  · obtain ⟨Δ, hΔ1, hΔ2, _⟩ := try_login_trace env (f + 1) 0 { s with
      nGet := bumpGet s.nGet url,
      events := s.events ++ [Event.getReq url tok, Event.getResp ⟨401, b⟩,
        Event.logWarn401] }
    rw [h2] at hΔ1
    simp only at hΔ1
    rw [hΔ1]
    have hz : List.countP isGetReqB Δ = 0 := by
      refine List.countP_eq_zero.mpr ?_
      intro e he
      simp [loginEvt_not_getReq (hΔ2 e he)]
    simp [countGets, List.countP_append, List.countP_cons, isGetReqB, hz]

/-- C7 witness: in `envC7` the GET answers 401, the re-login returns a 200
without `access_token` (hence Absent), and `try_get` stops with Absent after
its single GET. -/
theorem claim_C7_witness :
    envC7.getResps "u" (St.init.nGet "u") = ⟨401, none⟩ ∧
    (try_get envC7 2 "u" none 0 St.init =
      (some none, (⟨1, bumpGet (fun _ => 0) "u",
        [Event.getReq "u" none, Event.getResp ⟨401, none⟩, Event.logWarn401,
         Event.loginReq LOGIN_URL CREDS, Event.loginResp ⟨200, none⟩]⟩ : St).emit
        Event.logReloginFailed) ∧
     countGets ([Event.getReq "u" none, Event.getResp ⟨401, none⟩, Event.logWarn401,
       Event.loginReq LOGIN_URL CREDS, Event.loginResp ⟨200, none⟩]) =
       countGets St.init.events + 1) :=
  ⟨by decide,
   claim_C7 envC7 0 "u" none St.init none
     ⟨1, bumpGet (fun _ => 0) "u",
      [Event.getReq "u" none, Event.getResp ⟨401, none⟩, Event.logWarn401,
       Event.loginReq LOGIN_URL CREDS, Event.loginResp ⟨200, none⟩]⟩
     rfl rfl⟩

/-- C8: every login POST any run ever makes goes to `LOGIN_URL` with exactly
the fixed JSON body `CREDS`; and whenever the next login response is a 200,
`try_login` immediately returns that response's `access_token` field — even
when the field is absent (`none`). -/
theorem claim_C8 :
    (∀ (env : Env) (fuel i : Nat) (url : String) (body : List (String × String)),
        ((main' env fuel).2.events)[i]? = some (Event.loginReq url body) →
        url = LOGIN_URL ∧ body = CREDS) ∧
    (∀ env f a s, a < MAX_RETRIES →
        ∀ tok, env.loginResps s.nLogin = ⟨200, tok⟩ →
        try_login env (f + 1) a s = (some tok, { s with
          nLogin := s.nLogin + 1,
          events := s.events ++ [Event.loginReq LOGIN_URL CREDS,
            Event.loginResp ⟨200, tok⟩] })) := by
  constructor
  · intro env fuel i url body hi
    have hall : ∀ e ∈ (main' env fuel).2.events, loginShapeOK e := by
      obtain ⟨Δℓ, hℓ1, hℓ2, _⟩ := try_login_trace env fuel 0 St.init
      rcases hlogin : try_login env fuel 0 St.init with ⟨res, s1⟩
      rw [hlogin] at hℓ1
      simp only [St.init, List.nil_append] at hℓ1
      cases res with
      | none =>
        have hev : (main' env fuel).2 = s1 := by
          simp [main', hlogin]
        rw [hev, hℓ1]
        intro e he
        exact loginEvt_shape (hℓ2 e he)
      | some tok =>
        obtain ⟨Δm, hm1, hm2⟩ := mainLoop_shape env fuel tok SECRET_URLS [] s1
        rcases hml : mainLoop env fuel tok SECRET_URLS [] s1 with ⟨mres, s2⟩
        rw [hml] at hm1
        simp only at hm1
        cases mres with
        | none =>
          have hev : (main' env fuel).2 = s2 := by
            simp [main', hlogin, hml]
          rw [hev, hm1, hℓ1]
          intro e he
          rcases List.mem_append.mp he with he | he
          · exact loginEvt_shape (hℓ2 e he)
          · exact hm2 e he
        | some answers =>
          have hev : (main' env fuel).2.events = s2.events ++ answers.map Event.logInfo := by
            simp [main', hlogin, hml, foldl_logInfo_events]
          rw [hev, hm1, hℓ1]
          intro e he
          rcases List.mem_append.mp he with he | he
          · rcases List.mem_append.mp he with he | he
            · exact loginEvt_shape (hℓ2 e he)
            · exact hm2 e he
          · obtain ⟨m, -, rfl⟩ := List.mem_map.mp he
            simp [loginShapeOK]
    have := hall _ (List.getElem?_mem hi)
    simpa [loginShapeOK] using this
  · intro env f a s ha tok h200
    simp [try_login, ha, h200]

/-- C8 witness: the happy-path run's first event is the well-shaped login
POST, and `try_login` on a 200 response carrying token T2 returns it at
once. -/
theorem claim_C8_witness :
    (LOGIN_URL = LOGIN_URL ∧ CREDS = CREDS) ∧
    try_login envC6 1 0 St.init = (some (some "T2"),
      ⟨1, fun _ => 0, [Event.loginReq LOGIN_URL CREDS,
        Event.loginResp ⟨200, some "T2"⟩]⟩) :=
  ⟨claim_C8.1 (env9 "T1" "A1" "A2" "A3") 1 0 LOGIN_URL CREDS rfl,
   claim_C8.2 envC6 0 0 St.init (by decide) (some "T2") (by decide)⟩

/-- C9: happy path — with the login endpoint returning a token and the three
resources answering 200 with (truthy) answers a1, a2, a3 on their first GET,
`main` terminates with the answers in resource order, and the info-level log
lines (the program's sole output) are exactly a1, a2, a3 in order. -/
theorem claim_C9 (t a1 a2 a3 : String)
    (h1 : a1 ≠ "") (h2 : a2 ≠ "") (h3 : a3 ≠ "") (f : Nat) :
    (main' (env9 t a1 a2 a3) (f + 1)).1 = some [a1, a2, a3] ∧
    ((main' (env9 t a1 a2 a3) (f + 1)).2.events).filter isInfoB =
      [Event.logInfo a1, Event.logInfo a2, Event.logInfo a3] := by
  constructor
  · simp +decide [main', mainLoop, try_login, try_get, MAX_RETRIES, env9, St.init,
      St.emit, SECRET_URLS, bumpGet, pyFalsy, h1, h2, h3]
  · simp +decide [main', mainLoop, try_login, try_get, MAX_RETRIES, env9, St.init,
      St.emit, SECRET_URLS, bumpGet, pyFalsy, h1, h2, h3, isInfoB]

/-- C9 witness: concrete happy-path run with answers A1, A2, A3. -/
theorem claim_C9_witness :
    ("A1" : String) ≠ "" ∧ ("A2" : String) ≠ "" ∧ ("A3" : String) ≠ "" ∧
    ((main' (env9 "T1" "A1" "A2" "A3") 1).1 = some ["A1", "A2", "A3"] ∧
     ((main' (env9 "T1" "A1" "A2" "A3") 1).2.events).filter isInfoB =
       [Event.logInfo "A1", Event.logInfo "A2", Event.logInfo "A3"]) :=
  ⟨by decide, by decide, by decide,
   claim_C9 "T1" "A1" "A2" "A3" (by decide) (by decide) (by decide) 0⟩

/-- C10: when the second resource's 200 response carries the empty string in
its `answer` field, the orchestrator treats the fetch as failed — the falsy
empty string fails `main`'s result check — so it logs an error naming the
resource, omits the value, and the final output is [a1, a3]. -/
theorem claim_C10 (t a1 a3 : String) (h1 : a1 ≠ "") (h3 : a3 ≠ "") (f : Nat) :
    (main' (env10 t a1 a3) (f + 1)).1 = some [a1, a3] ∧
    Event.logSecretError "http://localhost:5000/api/secret2" ∈
      (main' (env10 t a1 a3) (f + 1)).2.events ∧
    ((main' (env10 t a1 a3) (f + 1)).2.events).filter isInfoB =
      [Event.logInfo a1, Event.logInfo a3] := by
  refine ⟨?_, ?_, ?_⟩
  · simp +decide [main', mainLoop, try_login, try_get, MAX_RETRIES, env10, St.init,
      St.emit, SECRET_URLS, bumpGet, pyFalsy, h1, h3]
  · simp +decide [main', mainLoop, try_login, try_get, MAX_RETRIES, env10, St.init,
      St.emit, SECRET_URLS, bumpGet, pyFalsy, h1, h3]
  · simp +decide [main', mainLoop, try_login, try_get, MAX_RETRIES, env10, St.init,
      St.emit, SECRET_URLS, bumpGet, pyFalsy, h1, h3, isInfoB]

/-- C10 witness: concrete run where the second answer is the empty string. -/
theorem claim_C10_witness :
    ("A1" : String) ≠ "" ∧ ("A3" : String) ≠ "" ∧
    ((main' (env10 "T1" "A1" "A3") 1).1 = some ["A1", "A3"] ∧
     Event.logSecretError "http://localhost:5000/api/secret2" ∈
       (main' (env10 "T1" "A1" "A3") 1).2.events ∧
     ((main' (env10 "T1" "A1" "A3") 1).2.events).filter isInfoB =
       [Event.logInfo "A1", Event.logInfo "A3"]) :=
  ⟨by decide, by decide,
   claim_C10 "T1" "A1" "A3" (by decide) (by decide) 0⟩

theorem firstTok_take_mono (t : List Event) (i j : Nat) (x : Option String)
    (hij : i ≤ j) (h : firstTok (t.take i) = some x) : firstTok (t.take j) = some x := by
  have hj' : j = i + (j - i) := by omega
  rw [hj', List.take_add]
  exact firstTok_append_some _ _ _ h

/-- C4 counterexample: the spec's invariant — every GET request presents the
most recent successful login's token, or null with no prior successful login
— fails on the code.  In `envC4` the first resource's 401 triggers a
re-login that returns T2, but `main` still presents its snapshot T1 on the
second resource's GET (trace index 11), where the most recent successful
login returned T2. -/
theorem claim_C4_counterexample :
    ¬ GetsOK TokClaimed (main' envC4 10).2.events := by
  intro h
  have h11 := h 11 "http://localhost:5000/api/secret2" (some "T1") rfl
  have hcontra : ¬ TokClaimed (((main' envC4 10).2.events).take 11) (some "T1") := by
    unfold TokClaimed
    decide
  exact hcontra h11

/-- C4 amended: every GET request presents either the most recent successful
login's token, or the orchestrator's snapshot token (the first successful
login's — `main` keeps presenting it even after a fetch refreshed the
token), or null with no prior successful login. -/
theorem claim_C4_amended (env : Env) (fuel : Nat) :
    GetsOK TokAmended (main' env fuel).2.events := by
  obtain ⟨Δℓ, hℓ1, hℓ2, hℓ3⟩ := try_login_trace env fuel 0 St.init
  rcases hlogin : try_login env fuel 0 St.init with ⟨res, s1⟩
  rw [hlogin] at hℓ1 hℓ3
  simp only [St.init, List.nil_append] at hℓ1
  cases res with
  | none =>
    have hev : (main' env fuel).2 = s1 := by
      simp [main', hlogin]
    rw [hev, hℓ1]
    exact GetsOK_append _ [] Δℓ (GetsOK_nil _) (fun e he => loginEvt_not_getReq (hℓ2 e he))
  | some tok =>
    obtain ⟨hlast, hfirst⟩ := hℓ3 tok (by decide) rfl
    have hft : firstTok s1.events = some tok := by
      rw [hℓ1]
      exact hfirst
    have hinv1 : GetsOK TokAmended s1.events := by
      rw [hℓ1]
      exact GetsOK_append _ [] Δℓ (GetsOK_nil _) (fun e he => loginEvt_not_getReq (hℓ2 e he))
    rcases hml : mainLoop env fuel tok SECRET_URLS [] s1 with ⟨mres, s2⟩
    have hinv2 := mainLoop_inv env fuel tok SECRET_URLS [] s1 hft hinv1
    rw [hml] at hinv2
    cases mres with
    | none =>
      have hev : (main' env fuel).2 = s2 := by
        simp [main', hlogin, hml]
      rw [hev]
      exact hinv2
    | some answers =>
      have hev : (main' env fuel).2.events = s2.events ++ answers.map Event.logInfo := by
        simp [main', hlogin, hml, foldl_logInfo_events]
      rw [hev]
      refine GetsOK_append _ _ _ hinv2 ?_
      intro e he
      obtain ⟨m, -, rfl⟩ := List.mem_map.mp he
      rfl

/-- C4 witness: the amended invariant holds at the very trace position where
the original claim fails — the second resource's GET presents the snapshot
token T1 (the first successful login's), not the most recent T2. -/
theorem claim_C4_witness :
    TokAmended (((main' envC4 10).2.events).take 11) (some "T1") :=
  claim_C4_amended envC4 10 11 "http://localhost:5000/api/secret2" (some "T1") rfl

/-- C5: every `try_get` call `main` makes presents the orchestrator's
snapshot token — the one returned by its single initial login, which is the
first successful login response of the trace; consequently any two fetch
calls of the same run present the same token, i.e. a token refreshed inside
one resource's fetch never propagates to a later fetch and `main`'s token
variable is unchanged by fetch calls. -/
theorem claim_C5 (env : Env) (fuel : Nat) :
    FetchOK (main' env fuel).2.events ∧
    (∀ (i j : Nat) (ui uj : String) (ti tj : Option String),
      ((main' env fuel).2.events)[i]? = some (Event.fetchCall ui ti) →
      ((main' env fuel).2.events)[j]? = some (Event.fetchCall uj tj) →
      ti = tj) := by
  have hfok : FetchOK (main' env fuel).2.events := by
    obtain ⟨Δℓ, hℓ1, hℓ2, hℓ3⟩ := try_login_trace env fuel 0 St.init
    rcases hlogin : try_login env fuel 0 St.init with ⟨res, s1⟩
    rw [hlogin] at hℓ1 hℓ3
    simp only [St.init, List.nil_append] at hℓ1
    cases res with
    | none =>
      have hev : (main' env fuel).2 = s1 := by
        simp [main', hlogin]
      rw [hev, hℓ1]
      exact FetchOK_append [] Δℓ FetchOK_nil (fun e he => loginEvt_not_fetchCall (hℓ2 e he))
    | some tok =>
      obtain ⟨hlast, hfirst⟩ := hℓ3 tok (by decide) rfl
      have hft : firstTok s1.events = some tok := by
        rw [hℓ1]
        exact hfirst
      have hfok1 : FetchOK s1.events := by
        rw [hℓ1]
        exact FetchOK_append [] Δℓ FetchOK_nil (fun e he => loginEvt_not_fetchCall (hℓ2 e he))
      rcases hml : mainLoop env fuel tok SECRET_URLS [] s1 with ⟨mres, s2⟩
      have hfok2 := mainLoop_fetchOK env fuel tok SECRET_URLS [] s1 hft hfok1
      rw [hml] at hfok2
      cases mres with
      | none =>
        have hev : (main' env fuel).2 = s2 := by
          simp [main', hlogin, hml]
        rw [hev]
        exact hfok2
      | some answers =>
        have hev : (main' env fuel).2.events = s2.events ++ answers.map Event.logInfo := by
          simp [main', hlogin, hml, foldl_logInfo_events]
        rw [hev]
        refine FetchOK_append _ _ hfok2 ?_
        intro e he
        obtain ⟨m, -, rfl⟩ := List.mem_map.mp he
        rfl
  refine ⟨hfok, ?_⟩
  intro i j ui uj ti tj hi hj
  have hti := hfok i ui ti hi
  have htj := hfok j uj tj hj
  rcases Nat.le_total i j with hij | hij
  · have hmono := firstTok_take_mono (main' env fuel).2.events i j ti hij hti.symm
    rw [hmono] at htj
    exact (Option.some.injEq _ _ ▸ htj).symm
  · have hmono := firstTok_take_mono (main' env fuel).2.events j i tj hij htj.symm
    rw [hmono] at hti
    exact Option.some.injEq _ _ ▸ hti

/-- C5 witness: in the `envC4` run, both recorded fetch boundaries (first
and second resource) present the snapshot token T1, and it is the first
successful login's token. -/
theorem claim_C5_witness :
    some (some "T1") = firstTok (((main' envC4 10).2.events).take 10) ∧
    (some "T1" : Option String) = some "T1" :=
  ⟨(claim_C5 envC4 10).1 10 "http://localhost:5000/api/secret2" (some "T1") rfl,
   (claim_C5 envC4 10).2 2 10 "http://localhost:5000/api/secret1"
     "http://localhost:5000/api/secret2" (some "T1") (some "T1") rfl rfl⟩
